import Mathlib

/-!
Verification of the sphere-browser-ext message routing, session, retrieval
and agent-loop core against its natural-language specification.

The TypeScript sources are shallowly embedded: JavaScript `Map`s become
association lists in insertion order, `async` control flow is collapsed to
its resulting value (an `await` on a rejected promise and a synchronous
`throw` are both modelled as the `Except`/throw case), thrown JavaScript
values are modelled by `JSValue`, and the pluggable external collaborators
(the embedding function, LangChain's `MemoryVectorStore` search,
`Math.sqrt`, `Number.toFixed`, the model backend) are parameters.
-/

namespace SphereExt

/-! ## JavaScript Map model (insertion-ordered association list) -/

/-- `Map.has`. -/
def mapHas {β : Type} (m : List (String × β)) (k : String) : Bool :=
  m.any (fun p => p.1 == k)

/-- `Map.get` / keyed storage read: `undefined` becomes `none`. -/
def mapGet {β : Type} (m : List (String × β)) (k : String) : Option β :=
  (m.find? (fun p => p.1 == k)).map (fun p => p.2)

/-- `Map.set`: replace in place if the key exists, else append. -/
def mapSet {β : Type} (m : List (String × β)) (k : String) (v : β) :
    List (String × β) :=
  if mapHas m k then
    m.map (fun p => if p.1 == k then (k, v) else p)
  else
    m ++ [(k, v)]

/-- `Map.delete` and, for the storage service, `setItem(key, null)`
(null-to-delete semantics). -/
def mapDelete {β : Type} (m : List (String × β)) (k : String) :
    List (String × β) :=
  m.filter (fun p => p.1 != k)

/-- `Map.size`. -/
def mapSize {β : Type} (m : List (String × β)) : Nat :=
  m.length

/-! ## Thrown JavaScript values -/

/-- A value thrown in JavaScript: an `Error` object carrying a message, a
plain string (as used by `Promise.reject("...")` in the routers), or any
other non-`Error` value. Only `errorObj` satisfies `instanceof Error`. -/
inductive JSValue where
  | errorObj (message : String)
  | str (s : String)
  | other
deriving Repr, DecidableEq

/-- `error instanceof Error ? error.message : fallback`. -/
def jsErrorMessage (e : JSValue) (fallback : String) : String :=
  match e with
  | .errorObj m => m
  | _ => fallback

/-! ## Message envelopes and the handler registry (src/lib/types.ts,
src/unnamed/part_011 `BaseRouter`) -/

/-- Error payload of a failure envelope. -/
structure ErrorInfo where
  code : String
  message : String
deriving Repr, DecidableEq

/-- Response envelope: `{success: true, data}` or
`{success: false, error: {code, message}}`. -/
inductive RouterResponse (ρ : Type) where
  | success (data : ρ)
  | failure (error : ErrorInfo)
deriving Repr, DecidableEq

/-- A message handler: payload to result, or a throw. A synchronous throw
and an asynchronous rejection are awaited at the same single point in the
routers, so both are the `Except.error` case. -/
def Handler (π ρ : Type) : Type :=
  π → Except JSValue ρ

/-- `Required<RouterOptions>` after constructor defaulting: timeout 30000,
debug false, maxHandlers 100 (the `debug` flag only controls logging and
carries no behaviour here). -/
structure RouterOptions where
  timeout : Int
  maxHandlers : Nat
deriving Repr, DecidableEq

/-- Constructor defaults: `timeout ?? 30000`, `maxHandlers ?? 100`. -/
def resolveRouterOptions (timeout : Option Int) (maxHandlers : Option Nat) :
    RouterOptions :=
  { timeout := timeout.getD 30000, maxHandlers := maxHandlers.getD 100 }

/-- `BaseRouter.validateOptions`: throws unless
`1000 <= timeout <= 300000` and `maxHandlers >= 1`. -/
def validateOptions (o : RouterOptions) : Except String Unit :=
  if o.timeout < 1000 || o.timeout > 300000 then
    Except.error "Timeout must be between 1000ms and 300000ms"
  else if o.maxHandlers < 1 then
    Except.error "maxHandlers must be at least 1"
  else
    Except.ok ()

/-- Router state: the `handlers` map plus resolved options. -/
structure Router (π ρ : Type) where
  handlers : List (String × Handler π ρ)
  options : RouterOptions

/-- `BaseRouter.registerHandler`: capacity check first, then duplicate
check, then insert. (The `typeof handler !== "function"` guard always
passes in the typed model, every `Handler` being a function.) -/
def registerHandler {π ρ : Type} (r : Router π ρ) (type : String)
    (handler : Handler π ρ) : Except String (Router π ρ) :=
  if r.options.maxHandlers ≤ mapSize r.handlers then
    Except.error "Maximum handlers limit reached"
  else if mapHas r.handlers type then
    Except.error "Handler already registered for type"
  else
    Except.ok { r with handlers := mapSet r.handlers type handler }

/-- The registry state after a `registerHandler` call: a throw aborts
before `handlers.set`, leaving the map untouched. -/
def tryRegister {π ρ : Type} (r : Router π ρ) (type : String)
    (handler : Handler π ρ) : Router π ρ :=
  match registerHandler r type handler with
  | .ok r2 => r2
  | .error _ => r

/-- `BaseRouter.unregisterHandler`. -/
def unregisterHandler {π ρ : Type} (r : Router π ρ) (type : String) :
    Router π ρ × Bool :=
  ({ r with handlers := mapDelete r.handlers type }, mapHas r.handlers type)

/-! ## Background router dispatch (src/lib/router/backgroundRouter.ts) -/

/-- Outcome of the `routeMessage` promise: resolved with a response
envelope, or rejected with a JavaScript value. -/
inductive RouteOutcome (ρ : Type) where
  | resolved (resp : RouterResponse ρ)
  | rejected (value : JSValue)
deriving Repr, DecidableEq

/-- `BackgroundRouter.routeMessage`. Note that both failure paths reject
the promise with a plain *string*, not with a `Response` envelope and not
with an `Error` object. -/
def routeMessageBackground {π ρ : Type} (r : Router π ρ) (type : String)
    (payload : π) : RouteOutcome ρ :=
  if mapHas r.handlers type = false then
    RouteOutcome.rejected
      (JSValue.str ("NO_HANDLER: No handler registered for message type " ++ type))
  else
    match mapGet r.handlers type with
    | none =>
        RouteOutcome.rejected
          (JSValue.str ("HANDLER_EXECUTION_ERROR: Handler disappeared for type: " ++ type))
    | some handler =>
        match handler payload with
        | .ok result => RouteOutcome.resolved (RouterResponse.success result)
        | .error e =>
            RouteOutcome.rejected
              (JSValue.str ("HANDLER_EXECUTION_ERROR: " ++
                jsErrorMessage e "Handler execution failed"))

/-- An inbound runtime message: either an object carrying a string `type`
(with its payload), or anything failing `isValidMessage`. -/
inductive Inbound (π : Type) where
  | valid (type : String) (payload : π)
  | invalid
deriving Repr, DecidableEq

/-- `BaseRouter.handleMessage` for the background role: the list of
responses passed to `sendResponse` (so `length = 1` is the
exactly-one-answer property). The `.catch` branch maps a rejection value
through `error instanceof Error ? error.message : "Unknown error occurred"`. -/
def handleMessageBackground {π ρ : Type} (r : Router π ρ)
    (msg : Inbound π) : List (RouterResponse ρ) :=
  match msg with
  | .invalid =>
      [RouterResponse.failure ⟨"INVALID_MESSAGE", "Message must have type property"⟩]
  | .valid type payload =>
      match routeMessageBackground r type payload with
      | .resolved resp => [resp]
      | .rejected e =>
          [RouterResponse.failure
            ⟨"ROUTING_ERROR", jsErrorMessage e "Unknown error occurred"⟩]

/-! ## Data models (src/unnamed/part_009, src/lib/models) -/

/-- `ChatMessage.role`. -/
inductive Role where
  | user
  | assistant
  | system
deriving Repr, DecidableEq

/-- `ChatMessage.status`. -/
inductive MsgStatus where
  | sending
  | sent
  | error
deriving Repr, DecidableEq

/-- `ChatMessage` from the models file; optional fields are `Option`. -/
structure ChatMsg where
  id : Option String
  role : Role
  content : String
  timestamp : Option Nat
  status : Option MsgStatus
deriving Repr, DecidableEq

/-- `ChatSession`. -/
structure Session where
  id : String
  title : Option String
  messages : List ChatMsg
  createdAt : Nat
  updatedAt : Nat
deriving Repr, DecidableEq

/-- Metadata values appearing in `Record<string, unknown>` metadata
objects in this codebase: strings or numbers. -/
inductive MetaVal where
  | str (s : String)
  | num (n : Nat)
deriving Repr, DecidableEq

/-- A `Record<string, unknown>` metadata object. -/
abbrev Metadata : Type :=
  List (String × MetaVal)

/-- `SearchResult` from the models file. -/
structure SearchResult where
  id : String
  text : String
  score : ℚ
  metadata : Metadata
deriving Repr, DecidableEq

/-- `ChatRequest.ragContext`. -/
structure RagContext where
  documents : List SearchResult
  threshold : Option ℚ
deriving Repr, DecidableEq

/-- `ChatRequest` (fields not read by the embedded services are kept as
plain data). -/
structure ChatRequest where
  messages : List ChatMsg
  model : Option String
  systemPrompt : Option String
  metadata : Option Metadata
  ragContext : Option RagContext
  generalContext : Option String
deriving Repr, DecidableEq

/-- `ChatResponse`. -/
structure ChatResponse where
  id : Option String
  content : String
  model : Option String
  timestamp : Option Nat
  metadata : Option Metadata
deriving Repr, DecidableEq

/-! ## Session store (src/unnamed/part_015 `SessionService`, backed by
src/unnamed/part_014 `StorageService`) -/

/-- Session service state: the in-memory `tabSessions` map plus the
persistent key-value storage area. `setItem(key, null)` deletes. -/
structure SessionState where
  cache : List (String × Session)
  storage : List (String × Session)
deriving Repr, DecidableEq

/-- The storage key `tab_session_` ++ tabId. -/
def tabSessionKey (tabId : String) : String :=
  "tab_session_" ++ tabId

/-- `SessionService.loadOrCreateTabSession` at time `now` (`Date.now()`):
cached session if present, else the persisted one (cached on load), else a
fresh empty session that is cached and persisted. -/
def loadOrCreateTabSession (st : SessionState) (tabId : String) (now : Nat) :
    Session × SessionState :=
  match mapGet st.cache tabId with
  | some s => (s, st)
  | none =>
      match mapGet st.storage (tabSessionKey tabId) with
      | some stored =>
          (stored, { st with cache := mapSet st.cache tabId stored })
      | none =>
          let newSession : Session :=
            { id := tabId, title := some ("Tab " ++ tabId), messages := [],
              createdAt := now, updatedAt := now }
          (newSession,
            { cache := mapSet st.cache tabId newSession,
              storage := mapSet st.storage (tabSessionKey tabId) newSession })

/-- `SessionService.getTabSession`. -/
def getTabSession (st : SessionState) (tabId : String) :
    Option Session × SessionState :=
  match mapGet st.cache tabId with
  | some s => (some s, st)
  | none =>
      match mapGet st.storage (tabSessionKey tabId) with
      | some s => (some s, { st with cache := mapSet st.cache tabId s })
      | none => (none, st)

/-- Append step shared by `addMessageToTabSession`: push the message with
defaulted id/timestamp (`||` defaults also fire on the falsy empty-string
id), set `updatedAt`, cache and persist. `rnd` stands in for
`Math.random()` in the generated id. -/
def finishAddMessage (st : SessionState) (tabId : String) (session : Session)
    (message : ChatMsg) (now : Nat) (rnd : Nat) : SessionState :=
  let freshId := toString now ++ "-" ++ toString rnd
  let msgId :=
    match message.id with
    | some i => if i = "" then freshId else i
    | none => freshId
  let msgTime :=
    match message.timestamp with
    | some t => if t = 0 then now else t
    | none => now
  let session2 :=
    { session with
        messages := session.messages ++
          [{ message with id := some msgId, timestamp := some msgTime }],
        updatedAt := now }
  { cache := mapSet st.cache tabId session2,
    storage := mapSet st.storage (tabSessionKey tabId) session2 }

/-- `SessionService.addMessageToTabSession`. -/
def addMessageToTabSession (st : SessionState) (tabId : String)
    (message : ChatMsg) (now : Nat) (rnd : Nat) : SessionState :=
  match mapGet st.cache tabId with
  | some session => finishAddMessage st tabId session message now rnd
  | none =>
      match getTabSession st tabId with
      | (some stored, st2) => finishAddMessage st2 tabId stored message now rnd
      | (none, st2) =>
          let (s, st3) := loadOrCreateTabSession st2 tabId now
          finishAddMessage st3 tabId s message now rnd

/-- `SessionService.clearTabSession`: drop the cache entry and delete the
persisted copy (`setItem(key, null)`). -/
def clearTabSession (st : SessionState) (tabId : String) : SessionState :=
  { cache := mapDelete st.cache tabId,
    storage := mapDelete st.storage (tabSessionKey tabId) }

/-- An operation on the session service, for reasoning about call
sequences; each state-stamping operation carries its `Date.now()` value. -/
inductive SessOp where
  | loadOrCreate (tabId : String) (now : Nat)
  | getSession (tabId : String)
  | addMessage (tabId : String) (message : ChatMsg) (now : Nat) (rnd : Nat)
  | clear (tabId : String)
deriving Repr, DecidableEq

/-- Run one session-service operation for its state effect. -/
def applySessOp (st : SessionState) : SessOp → SessionState
  | .loadOrCreate tabId now => (loadOrCreateTabSession st tabId now).2
  | .getSession tabId => (getTabSession st tabId).2
  | .addMessage tabId message now rnd =>
      addMessageToTabSession st tabId message now rnd
  | .clear tabId => clearTabSession st tabId

/-- Run a sequence of session-service operations. -/
def runSessOps (st : SessionState) (ops : List SessOp) : SessionState :=
  ops.foldl applySessOp st

/-! ## Tab-scoped vector store (src/services/vectorstore/index.ts, first
class: `MemoryVectorStore`-backed) -/

/-- A LangChain `Document`: page content plus metadata. -/
structure JsDoc where
  pageContent : String
  metadata : Metadata
deriving Repr, DecidableEq

/-- The persisted `TabDocuments` record. `persistTabDocuments` writes the
fields `tabId`, `documents` and `updatedAt` only; the `document` field
models a dynamic property read on the same JavaScript object (reading an
absent property yields `undefined`, i.e. `none`), and is `none` on every
object this module persists. -/
structure TabDocumentsObj where
  tabId : String
  documents : List JsDoc
  document : Option JsDoc
  updatedAt : Nat
deriving Repr, DecidableEq

/-- Tab vector store service state: the in-memory per-tab
`MemoryVectorStore`s (modelled by their document lists) and the session
storage area. -/
structure TabVSState where
  memoryStores : List (String × List JsDoc)
  storage : List (String × TabDocumentsObj)
deriving Repr, DecidableEq

/-- The storage key `tab_documents_` ++ tabId. -/
def tabDocumentsKey (tabId : String) : String :=
  "tab_documents_" ++ tabId

/-- `VectorStoreService.getOrCreateTabVectorStore`: return the in-memory
store if present, else create one seeded with the persisted documents (if
any) and remember it. -/
def getOrCreateTabVectorStore (st : TabVSState) (tabId : String) :
    List JsDoc × TabVSState :=
  match mapGet st.memoryStores tabId with
  | some docs => (docs, st)
  | none =>
      let loaded :=
        match mapGet st.storage (tabDocumentsKey tabId) with
        | some tabDocs => tabDocs.documents
        | none => []
      (loaded, { st with memoryStores := mapSet st.memoryStores tabId loaded })

/-- Object spread `{...metadata, tabId, addedAt: Date.now()}`. -/
def spreadMeta (base : Metadata) (tabId : String) (now : Nat) : Metadata :=
  mapSet (mapSet base "tabId" (MetaVal.str tabId)) "addedAt" (MetaVal.num now)

/-- `VectorStoreService.addWebpageToTab` at time `now`: build one
`Document` holding the whole page text, add it to the tab's in-memory
store, and persist via `persistTabDocuments` (which overwrites the stored
record with exactly that single document). -/
def addWebpageToTab (st : TabVSState) (tabId : String) (pageContent : String)
    (metadata : Metadata) (now : Nat) : TabVSState :=
  let (docs, st2) := getOrCreateTabVectorStore st tabId
  let document : JsDoc :=
    { pageContent := pageContent, metadata := spreadMeta metadata tabId now }
  let st3 := { st2 with
    memoryStores := mapSet st2.memoryStores tabId (docs ++ [document]) }
  { st3 with
    storage := mapSet st3.storage (tabDocumentsKey tabId)
      { tabId := tabId, documents := [document], document := none,
        updatedAt := now } }

/-- `VectorStoreService.getTabDocument`: the persisted record, or `none`
when absent or when its `documents` list is empty. -/
def getTabDocument (st : TabVSState) (tabId : String) :
    Option TabDocumentsObj :=
  match mapGet st.storage (tabDocumentsKey tabId) with
  | none => none
  | some tabDocument =>
      if tabDocument.documents.length = 0 then none else some tabDocument

/-- `VectorStoreService.clearTabDocuments`: drop the in-memory store and
delete the persisted record. -/
def clearTabDocuments (st : TabVSState) (tabId : String) : TabVSState :=
  { memoryStores := mapDelete st.memoryStores tabId,
    storage := mapDelete st.storage (tabDocumentsKey tabId) }

/-- The external similarity searcher: LangChain
`MemoryVectorStore.similaritySearchWithScore` over the store's documents,
returning document/score pairs. A collaborator, so a parameter. -/
def SimSearch : Type :=
  List JsDoc → String → Nat → List (JsDoc × ℚ)

/-- `VectorStoreService.searchInTab` (no threshold parameter exists on
this function): run the external similarity search on the tab's store and
repackage, converting distance to similarity as `1 - score`. -/
def searchInTab (simSearch : SimSearch) (st : TabVSState)
    (tabId : String) (query : String) (limit : Nat) (now : Nat) :
    List SearchResult × TabVSState :=
  let (docs, st2) := getOrCreateTabVectorStore st tabId
  let results := simSearch docs query limit
  (results.map (fun r =>
      { id := tabId ++ "_" ++ toString now, text := r.1.pageContent,
        score := 1 - r.2, metadata := r.1.metadata }),
    st2)

/-! ## RAG request preparation -/

/-- `ChatService.prepareRagRequest` (src/services/chat.ts): find the last
user message via the non-mutating `toReversed()`; with RAG disabled attach
the persisted page as `generalContext` if `tabDocument.document` is
present; with RAG enabled run `searchInTab` and attach `ragContext` when
it returned anything, else fall back to `tabDocument.document` the same
way. -/
def chatPrepareRagRequest (simSearch : SimSearch) (st : TabVSState)
    (tabId : String) (request : ChatRequest) (enableRag : Bool)
    (contextLimit : Nat) (now : Nat) : ChatRequest × TabVSState :=
  match request.messages.reverse.find? (fun m => m.role == Role.user) with
  | none => (request, st)
  | some lastUserMessage =>
      let tabDocument := getTabDocument st tabId
      if enableRag = false then
        match tabDocument with
        | some td =>
            match td.document with
            | some d => ({ request with generalContext := some d.pageContent }, st)
            | none => (request, st)
        | none => (request, st)
      else
        let (searchResults, st2) :=
          searchInTab simSearch st tabId lastUserMessage.content contextLimit now
        if 0 < searchResults.length then
          ({ request with
              ragContext := some { documents := searchResults, threshold := none } },
            st2)
        else
          match tabDocument with
          | some td =>
              match td.document with
              | some d =>
                  ({ request with generalContext := some d.pageContent }, st2)
              | none => (request, st2)
          | none => (request, st2)

/-- Result of `AIServiceFactory.prepareRagRequest`: the returned request,
the contents of the *caller's* `request.messages` array after the call
(the in-place `reverse()` mutates it), and the vector store state. -/
structure FactoryRagResult where
  returned : ChatRequest
  callerMessages : List ChatMsg
  state : TabVSState
deriving Repr, DecidableEq

/-- `AIServiceFactory.prepareRagRequest` (src/services/factory.ts):
identical retrieval logic to the chat-service variant minus the
`enableRag` flag, but the last user message is located with the *mutating*
`Array.prototype.reverse()`, so the caller's message array — and the
`messages` carried by every returned request, which spreads the mutated
object — ends up reversed. -/
def factoryPrepareRagRequest (simSearch : SimSearch) (st : TabVSState)
    (tabId : String) (request : ChatRequest) (contextLimit : Nat)
    (now : Nat) : FactoryRagResult :=
  let reversed := request.messages.reverse
  let request2 := { request with messages := reversed }
  match reversed.find? (fun m => m.role == Role.user) with
  | none => { returned := request2, callerMessages := reversed, state := st }
  | some lastUserMessage =>
      let (searchResults, st2) :=
        searchInTab simSearch st tabId lastUserMessage.content contextLimit now
      if 0 < searchResults.length then
        { returned := { request2 with
            ragContext := some { documents := searchResults, threshold := none } },
          callerMessages := reversed, state := st2 }
      else
        match getTabDocument st2 tabId with
        | some td =>
            match td.document with
            | some d =>
                { returned := { request2 with generalContext := some d.pageContent },
                  callerMessages := reversed, state := st2 }
            | none => { returned := request2, callerMessages := reversed, state := st2 }
        | none => { returned := request2, callerMessages := reversed, state := st2 }

/-! ## Chat service clear (src/services/chat.ts `clearTabSession`) -/

/-- Combined chat-service state. -/
structure ChatState where
  sessions : SessionState
  vectors : TabVSState
  currentTabId : Option String
deriving Repr, DecidableEq

/-- `ChatService.clearTabSession`: throws without an active tab, else
clears the tab's chat session via the session service. It never touches
the vector store. -/
def chatClearTabSession (st : ChatState) : Except String ChatState :=
  match st.currentTabId with
  | none => Except.error "No active tab"
  | some tabId =>
      Except.ok { st with sessions := clearTabSession st.sessions tabId }

/-! ## Store-wide vector store (src/services/vectorstore/index.ts, second
class) and its `search` pipeline -/

/-- One entry of the `vectors` map: id, embedding and document, in map
insertion order. -/
structure StoredVec where
  id : String
  embedding : List ℚ
  content : String
  metadata : Metadata
deriving Repr, DecidableEq

/-- One element of the `scores` array built by `search`. -/
structure Scored where
  id : String
  score : ℚ
  content : String
  metadata : Metadata
deriving Repr, DecidableEq

/-- The dot-product loop shared by `dotProduct`, `normA` and `normB` in
`cosineSimilarity`. -/
def dotProd (a b : List ℚ) : ℚ :=
  (List.zipWith (fun x y => x * y) a b).sum

/-- The value `cosineSimilarity` computes in its non-throwing branch.
`Math.sqrt` is real-valued, so it is a parameter `sqrt`; every theorem
below holds for an arbitrary `sqrt`, and witnesses pick one that is exact
on the perfect squares they use. -/
def cosSimVal (sqrt : ℚ → ℚ) (vecA vecB : List ℚ) : ℚ :=
  let dotProduct := dotProd vecA vecB
  let normA := dotProd vecA vecA
  let normB := dotProd vecB vecB
  let denominator := sqrt normA * sqrt normB
  if denominator = 0 then 0 else dotProduct / denominator

/-- `VectorStoreService.cosineSimilarity`: throws on a length mismatch,
else the cosine value. -/
def cosineSimilarity (sqrt : ℚ → ℚ) (vecA vecB : List ℚ) :
    Except String ℚ :=
  if vecA.length ≠ vecB.length then
    Except.error "Vectors must have the same length"
  else
    Except.ok (cosSimVal sqrt vecA vecB)

/-- Insert into a list already sorted by descending score, before the
first element it is not below — the stable behaviour of ES2019
`Array.prototype.sort` with comparator `(a, b) => b.score - a.score`. -/
def insertScoredDesc (x : Scored) : List Scored → List Scored
  | [] => [x]
  | y :: ys =>
      if y.score ≤ x.score then x :: y :: ys else y :: insertScoredDesc x ys

/-- Stable sort by descending score (`scores.sort((a, b) => b.score - a.score)`). -/
def sortScoredDesc : List Scored → List Scored
  | [] => []
  | x :: xs => insertScoredDesc x (sortScoredDesc xs)

/-- The `filter` predicate `!threshold || item.score >= threshold`:
an omitted (`undefined`) or zero threshold is falsy, disabling the filter
entirely; any other threshold keeps scores at or above it. -/
def thresholdKeep (threshold : Option ℚ) (score : ℚ) : Bool :=
  match threshold with
  | none => true
  | some t => if t = 0 then true else t ≤ score

/-- `.map` step of `search`: repackage a scored entry as a `SearchResult`. -/
def scoredToResult (s : Scored) : SearchResult :=
  { id := s.id, text := s.content, score := s.score, metadata := s.metadata }

/-- Score every stored vector against the query embedding (the `for ... of
this.vectors` loop); the first length mismatch throws out of `search`. -/
def scoreAll (sqrt : ℚ → ℚ) (queryEmbedding : List ℚ)
    (vectors : List StoredVec) : Except String (List Scored) :=
  vectors.mapM (fun sv =>
    (cosineSimilarity sqrt queryEmbedding sv.embedding).map (fun s =>
      { id := sv.id, score := s, content := sv.content,
        metadata := sv.metadata }))

/-- `VectorStoreService.search(query, limit, threshold?)`: embed the query
(`embed` models the injected `Embeddings` collaborator), score all stored
vectors, sort descending, `slice(0, limit)`, filter by
`!threshold || score >= threshold`, and map to results. -/
def searchVS (embed : String → List ℚ) (sqrt : ℚ → ℚ)
    (vectors : List StoredVec) (query : String) (limit : Nat)
    (threshold : Option ℚ) : Except String (List SearchResult) := do
  let queryEmbedding := embed query
  let scores ← scoreAll sqrt queryEmbedding vectors
  let results :=
    (((sortScoredDesc scores).take limit).filter
      (fun item => thresholdKeep threshold item.score)).map scoredToResult
  pure results

/-! ## Bounded agent tool-calling loop
(src/unnamed/part_018 `GeminiLLMService.chat`) -/

/-- A model-requested tool call. -/
structure ToolCall where
  id : String
  name : String
  args : String
deriving Repr, DecidableEq

/-- A LangChain `BaseMessage` as used by the loop transcript. -/
inductive BMsg where
  | system (content : String)
  | human (content : String)
  | ai (content : String) (tool_calls : List ToolCall)
  | tool (tool_call_id : String) (content : String)
deriving Repr, DecidableEq

/-- One model response: content plus requested tool calls. -/
structure AIResp where
  content : String
  tool_calls : List ToolCall
deriving Repr, DecidableEq

/-- A bound MCP tool: name plus an executable that may throw. -/
structure MCPTool where
  name : String
  invoke : String → Except JSValue String

/-- The model backend, `model.invoke`: transcript to response. An
external collaborator, so a parameter; quantifying over it covers every
model behaviour. -/
def ModelFn : Type :=
  List BMsg → AIResp

/-- Template-literal rendering of a caught value in
`Error executing tool: ${err}`. -/
def jsValueText (e : JSValue) : String :=
  match e with
  | .errorObj m => "Error: " ++ m
  | .str s => s
  | .other => "[object]"

/-- The inner `for (const toolCall of response.tool_calls)` body: a known
tool is invoked and its result (or the caught error, rendered as text)
pushed as a `ToolMessage`; an unknown tool name is skipped silently. -/
def execToolCalls (tools : List MCPTool) (calls : List ToolCall) :
    List BMsg :=
  calls.flatMap (fun toolCall =>
    match tools.find? (fun t => t.name == toolCall.name) with
    | some tool =>
        match tool.invoke toolCall.args with
        | .ok result => [BMsg.tool toolCall.id result]
        | .error err =>
            [BMsg.tool toolCall.id ("Error executing tool: " ++ jsValueText err)]
    | none => [])

/-- The `while (response.tool_calls && response.tool_calls.length > 0 &&
turns < MAX_TURNS)` loop, in fuel form: `remaining` is
`MAX_TURNS - turns`, which strictly decreases each iteration. Returns the
final response together with the number of loop iterations executed (the
final value of `turns` minus its initial value), each iteration being one
in-loop model round-trip. -/
def runToolLoop (model : ModelFn) (tools : List MCPTool)
    (messages : List BMsg) (response : AIResp) :
    (remaining : Nat) → AIResp × Nat
  | 0 => (response, 0)
  | remaining + 1 =>
      if response.tool_calls.isEmpty then
        (response, 0)
      else
        let messages2 :=
          messages ++ [BMsg.ai response.content response.tool_calls] ++
            execToolCalls tools response.tool_calls
        let next := runToolLoop model tools messages2 (model messages2) remaining
        (next.1, next.2 + 1)

/-- `const MAX_TURNS = 5`. -/
def MAX_TURNS : Nat :=
  5

/-- `LLMServiceConfig` fields read by `chat`. -/
structure LLMConfig where
  apiKey : String
  model : Option String
deriving Repr, DecidableEq

/-- `convertMessages`: user becomes `HumanMessage`, assistant becomes
`AIMessage`, anything else becomes `HumanMessage`. -/
def convertMessages (messages : List ChatMsg) : List BMsg :=
  messages.map (fun m =>
    match m.role with
    | Role.user => BMsg.human m.content
    | Role.assistant => BMsg.ai m.content []
    | Role.system => BMsg.human m.content)

/-- `buildRagContext`; `fmt` models the floating-point
`(score * 100).toFixed(1)` rendering. -/
def buildRagContext (fmt : ℚ → String) (documents : List SearchResult) :
    String :=
  String.intercalate "\n\n"
    ((documents.enum).map (fun p =>
      "[Document " ++ toString (p.1 + 1) ++ "]\n" ++ p.2.text ++
        "\n(Relevance: " ++ fmt p.2.score ++ "%)"))

/-- `generateSystemMessage`: context from `ragContext` when it holds any
documents, else from a truthy `generalContext`; the browser-automation
instructions are always appended, so the function never returns null.
Prompt strings are abridged. -/
def generateSystemMessage (fmt : ℚ → String) (request : ChatRequest) :
    BMsg :=
  let context :=
    match request.ragContext with
    | some rc =>
        if 0 < rc.documents.length then buildRagContext fmt rc.documents
        else
          match request.generalContext with
          | some s => s
          | none => ""
    | none =>
        match request.generalContext with
        | some s => s
        | none => ""
  let base := "You are a helpful assistant."
  let withContext :=
    if context = "" then base
    else base ++ "\n\nUse the following context to answer questions:\n\n" ++
      context ++ "\n\nIf the context does not contain the answer, use general knowledge."
  BMsg.system (withContext ++ "\n\nIMPORTANT: inspect the page with get_content before interacting.")

/-- The transcript handed to the first `model.invoke`: converted history
with the system message unshifted in front. -/
def initMessages (fmt : ℚ → String) (request : ChatRequest) : List BMsg :=
  generateSystemMessage fmt request :: convertMessages request.messages

/-- The `ChatResponse` literal `chat` builds from the final loop
response (`Date.now()` is `now`). -/
def mkChatResponse (cfg : LLMConfig) (request : ChatRequest)
    (response : AIResp) (now : Nat) : ChatResponse :=
  { id := some (toString now), content := response.content,
    model := some (cfg.model.getD "gemini-2.0-flash"),
    timestamp := some now, metadata := request.metadata }

/-- `GeminiLLMService.chat` for an initialized client: build the
transcript, invoke the model once, run the bounded tool loop, and package
the final response. -/
def geminiChat (cfg : LLMConfig) (model : ModelFn) (tools : List MCPTool)
    (fmt : ℚ → String) (request : ChatRequest) (now : Nat) : ChatResponse :=
  let messages := initMessages fmt request
  let response := model messages
  let final := runToolLoop model tools messages response MAX_TURNS
  mkChatResponse cfg request final.1 now

/-! ## Map lemmas -/

theorem find_none_of_mapHas_false {β : Type} (m : List (String × β))
    (k : String) (h : mapHas m k = false) :
    m.find? (fun p => p.1 == k) = none := by
  induction m with
  | nil => rfl
  | cons a t ih =>
      unfold mapHas at h
      simp only [List.any_cons, Bool.or_eq_false_iff] at h
      simp only [List.find?_cons, h.1]
      exact ih (by unfold mapHas; exact h.2)

theorem mapGet_map_replace_ne {β : Type} (k k2 : String) (v : β)
    (h : k ≠ k2) (m : List (String × β)) :
    mapGet (m.map (fun p => if p.1 == k then (k, v) else p)) k2 =
      mapGet m k2 := by
  unfold mapGet
  rw [List.find?_map]
  have hpred :
      ((fun p : String × β => p.1 == k2) ∘
        fun p => if p.1 == k then (k, v) else p) =
      (fun p : String × β => p.1 == k2) := by
    funext p
    by_cases hp : (p.1 == k) = true
    · have hpk : p.1 = k := by simpa using hp
      have h1 : (k == k2) = false := by simpa using h
      simp [Function.comp, hp, hpk, h1]
    · simp [Function.comp, hp]
  rw [hpred]
  cases hf : List.find? (fun p => p.1 == k2) m with
  | none => simp
  | some x =>
      have hx := List.find?_some hf
      have hxne : x.1 ≠ k := by
        have hxe : x.1 = k2 := by simpa using hx
        rw [hxe]
        exact fun e => h e.symm
      simp [hxne]

theorem mapGet_set_self {β : Type} (m : List (String × β)) (k : String)
    (v : β) : mapGet (mapSet m k v) k = some v := by
  unfold mapSet
  by_cases h : mapHas m k
  · rw [if_pos h]
    unfold mapGet
    rw [List.find?_map]
    have hstep : ∀ (l : List (String × β)), mapHas l k = true →
        ∃ a, List.find?
          ((fun p : String × β => p.1 == k) ∘
            fun p => if p.1 == k then (k, v) else p) l = some a ∧
          (a.1 == k) = true := by
      intro l
      induction l with
      | nil => intro hl; simp [mapHas] at hl
      | cons a t ih =>
          intro hl
          by_cases ha : (a.1 == k) = true
          · exact ⟨a, List.find?_cons_of_pos t (by simp [Function.comp, ha]), ha⟩
          · unfold mapHas at hl
            simp only [List.any_cons, ha, Bool.false_or] at hl
            obtain ⟨b, hb1, hb2⟩ := ih (by unfold mapHas; exact hl)
            refine ⟨b, ?_, hb2⟩
            rw [List.find?_cons_of_neg t (by simp [Function.comp, ha])]
            exact hb1
    obtain ⟨a, ha1, ha2⟩ := hstep m h
    have hak : a.1 = k := by simpa using ha2
    rw [ha1]
    simp [hak]
  · rw [if_neg h]
    unfold mapGet
    rw [List.find?_append,
      find_none_of_mapHas_false m k (Bool.eq_false_iff.mpr h)]
    simp

theorem mapGet_set_ne {β : Type} (m : List (String × β)) (k k2 : String)
    (v : β) (h : k ≠ k2) : mapGet (mapSet m k v) k2 = mapGet m k2 := by
  have hbeq : (k == k2) = false := by simpa using h
  unfold mapSet
  by_cases hh : mapHas m k
  · rw [if_pos hh]
    exact mapGet_map_replace_ne k k2 v h m
  · rw [if_neg hh]
    unfold mapGet
    rw [List.find?_append]
    cases hf : m.find? (fun p => p.1 == k2) with
    | some x => simp [hf]
    | none => simp [hf, List.find?_cons, hbeq]

theorem mapGet_delete_self {β : Type} (m : List (String × β)) (k : String) :
    mapGet (mapDelete m k) k = none := by
  induction m with
  | nil => rfl
  | cons a t ih =>
      unfold mapDelete mapGet at ih ⊢
      by_cases ha : (a.1 == k) = true
      · have hne : (a.1 != k) = false := by simp [bne, ha]
        simp only [List.filter_cons, hne, Bool.false_eq_true, if_false]
        exact ih
      · have hne : (a.1 != k) = true := by simp [bne, ha]
        rw [List.filter_cons, if_pos hne,
          List.find?_cons_of_neg (List.filter (fun p => p.1 != k) t) ha]
        exact ih

theorem mapGet_delete_ne {β : Type} (m : List (String × β)) (k k2 : String)
    (h : k ≠ k2) : mapGet (mapDelete m k) k2 = mapGet m k2 := by
  induction m with
  | nil => rfl
  | cons a t ih =>
      unfold mapDelete mapGet at ih ⊢
      by_cases ha : (a.1 == k) = true
      · have hak : a.1 = k := by simpa using ha
        have ha2 : (a.1 == k2) = false := by
          rw [hak]
          simpa using h
        have hne : (a.1 != k) = false := by simp [bne, ha]
        rw [List.filter_cons, if_neg (by simp [hne]),
          List.find?_cons_of_neg t (by simp [ha2])]
        exact ih
      · have hne : (a.1 != k) = true := by simp [bne, ha]
        rw [List.filter_cons, if_pos hne]
        by_cases ha2 : (a.1 == k2) = true
        · rw [List.find?_cons_of_pos (List.filter (fun p => p.1 != k) t) ha2,
            List.find?_cons_of_pos t ha2]
        · rw [List.find?_cons_of_neg (List.filter (fun p => p.1 != k) t) ha2,
            List.find?_cons_of_neg t ha2]
          exact ih

/-! ## C6: duplicate and at-capacity registration -/

/-- C6: for any kind with a registered handler, registering a second
handler fails and leaves the registry unchanged — same handler map, same
lookup, same count; registration at the configured capacity also fails
without mutating the registry. -/
theorem registerHandler_rejects_duplicate_and_capacity {π ρ : Type}
    (r : Router π ρ) (type : String) (handler : Handler π ρ) :
    (mapHas r.handlers type = true →
      (registerHandler r type handler).isOk = false ∧
      tryRegister r type handler = r ∧
      mapGet (tryRegister r type handler).handlers type = mapGet r.handlers type ∧
      mapSize (tryRegister r type handler).handlers = mapSize r.handlers) ∧
    (r.options.maxHandlers ≤ mapSize r.handlers →
      (registerHandler r type handler).isOk = false ∧
      tryRegister r type handler = r) := by
  constructor
  · intro h
    by_cases hcap : r.options.maxHandlers ≤ mapSize r.handlers
    · simp [registerHandler, tryRegister, hcap, Except.isOk, Except.toBool]
    · simp [registerHandler, tryRegister, hcap, h, Except.isOk, Except.toBool]
  · intro hcap
    simp [registerHandler, tryRegister, hcap, Except.isOk, Except.toBool]

/-- Handler used by concrete router instances. -/
def handlerEcho : Handler Nat Nat :=
  fun n => Except.ok n

/-- A router already holding a handler for kind `k`, default options. -/
def routerDup : Router Nat Nat :=
  { handlers := [("k", handlerEcho)], options := resolveRouterOptions none none }

/-- A router at its configured capacity of one handler. -/
def routerFull : Router Nat Nat :=
  { handlers := [("a", handlerEcho)],
    options := { timeout := 30000, maxHandlers := 1 } }

theorem registerHandler_rejects_duplicate_and_capacity_witness :
    ((registerHandler routerDup "k" handlerEcho).isOk = false ∧
      tryRegister routerDup "k" handlerEcho = routerDup ∧
      mapGet (tryRegister routerDup "k" handlerEcho).handlers "k" =
        mapGet routerDup.handlers "k" ∧
      mapSize (tryRegister routerDup "k" handlerEcho).handlers =
        mapSize routerDup.handlers) ∧
    ((registerHandler routerFull "b" handlerEcho).isOk = false ∧
      tryRegister routerFull "b" handlerEcho = routerFull) :=
  ⟨(registerHandler_rejects_duplicate_and_capacity routerDup "k" handlerEcho).1 (by rfl),
   (registerHandler_rejects_duplicate_and_capacity routerFull "b" handlerEcho).2 (by decide)⟩

/-! ## C1: what the caller receives when a handler throws -/

/-- A handler that throws `new Error("boom")`. -/
def handlerBoom : Handler Nat Nat :=
  fun _ => Except.error (JSValue.errorObj "boom")

/-- A started background router with kind `k` registered to
`handlerBoom`. -/
def routerC1 : Router Nat Nat :=
  { handlers := [("k", handlerBoom)], options := resolveRouterOptions none none }

/-- C1: the listener does answer exactly once for every inbound message,
but when the registered handler for kind `k` throws `Error("boom")`, the
single answer is a failure envelope with code `ROUTING_ERROR` and message
`Unknown error occurred`: `routeMessage` rejects with the plain string
`HANDLER_EXECUTION_ERROR: boom`, and the listener's catch, seeing a
non-`Error` value, discards that string — the `HandlerExecutionError`
code and the original message never reach the caller. -/
theorem backgroundListener_misreports_handler_throw :
    handleMessageBackground routerC1 (Inbound.valid "k" 0) =
      [RouterResponse.failure ⟨"ROUTING_ERROR", "Unknown error occurred"⟩] ∧
    ("ROUTING_ERROR" ≠ "HANDLER_EXECUTION_ERROR" ∧
      "Unknown error occurred" ≠ "boom") ∧
    (∀ (r : Router Nat Nat) (m : Inbound Nat),
      (handleMessageBackground r m).length = 1) := by
  refine ⟨rfl, ⟨by decide, by decide⟩, ?_⟩
  intro r m
  cases m with
  | invalid => rfl
  | valid type payload =>
      cases hro : routeMessageBackground r type payload <;>
        simp [handleMessageBackground, hro]

/-! ## C9: the factory RAG preparation mutates the caller's messages -/

/-- A two-message conversation whose reversal differs from itself. -/
def reqDemoC9 : ChatRequest :=
  { messages :=
      [{ id := some "u1", role := Role.user, content := "first",
         timestamp := some 1, status := some MsgStatus.sent },
       { id := some "a1", role := Role.assistant, content := "second",
         timestamp := some 2, status := some MsgStatus.sent }],
    model := none, systemPrompt := none, metadata := none,
    ragContext := none, generalContext := none }

/-- C9: after `AIServiceFactory.prepareRagRequest`, the caller's
`request.messages` array is in reversed order (`reverse()` mutated it in
place), and the request handed on to the model carries that same reversed
array — every branch of the function behaves so; the demo conversation
shows the reversal really changes the history. -/
theorem factoryPrepareRag_reverses_messages (simSearch : SimSearch)
    (st : TabVSState) (tabId : String) (request : ChatRequest)
    (contextLimit : Nat) (now : Nat) :
    (factoryPrepareRagRequest simSearch st tabId request contextLimit
        now).callerMessages = request.messages.reverse ∧
    (factoryPrepareRagRequest simSearch st tabId request contextLimit
        now).returned.messages = request.messages.reverse ∧
    reqDemoC9.messages.reverse ≠ reqDemoC9.messages := by
  refine ⟨?_, ?_, by decide⟩ <;>
  · unfold factoryPrepareRagRequest
    dsimp only []
    cases hf : List.find? (fun m => m.role == Role.user)
        request.messages.reverse with
    | none => simp [hf]
    | some lum =>
        simp only [hf]
        cases hsearch : searchInTab simSearch st tabId lum.content
            contextLimit now with
        | mk res st2 =>
            simp only [hsearch]
            split
            · rfl
            · cases hd : getTabDocument st2 tabId with
              | none => rfl
              | some td =>
                  cases hdoc : td.document with
                  | none => simp [hdoc]
                  | some d => simp [hdoc]

/-! ## C4: what one page submission actually stores -/

/-- A page of 1200 characters — long enough that any 500-unit chunking
with 100-unit overlap would produce at least two chunks. -/
def pageC4 : String :=
  String.mk (List.replicate 1200 'a')

/-- The empty tab vector-store state. -/
def emptyTabVS : TabVSState :=
  { memoryStores := [], storage := [] }

set_option maxRecDepth 8192 in
/-- C4 counterexample: submitting a 1200-character page for tab `7` on a
fresh store persists exactly one document whose text is the whole page —
the page *is* stored as a single unsplit document, with no 500-unit
overlapping chunks. -/
theorem addWebpage_stores_single_unsplit_doc :
    ((getTabDocument (addWebpageToTab emptyTabVS "7" pageC4 [] 0) "7").map
        (fun td => td.documents.map (fun d => d.pageContent))) =
      some [pageC4] ∧
    500 < pageC4.length := by
  exact ⟨rfl, by decide⟩

/-- C4 amended: every page submission stores the full page text as one
document (tagged with `tabId` and `addedAt` metadata) in the tab's
in-memory store and persists exactly that single untruncated document as
the tab's stored content; no splitting into chunks occurs. -/
theorem addWebpageToTab_single_document (st : TabVSState)
    (tabId pageContent : String) (metadata : Metadata) (now : Nat) :
    mapGet (addWebpageToTab st tabId pageContent metadata now).storage
        (tabDocumentsKey tabId) =
      some { tabId := tabId,
             documents := [{ pageContent := pageContent,
                             metadata := spreadMeta metadata tabId now }],
             document := none, updatedAt := now } ∧
    getTabDocument (addWebpageToTab st tabId pageContent metadata now)
        tabId =
      some { tabId := tabId,
             documents := [{ pageContent := pageContent,
                             metadata := spreadMeta metadata tabId now }],
             document := none, updatedAt := now } ∧
    mapGet (addWebpageToTab st tabId pageContent metadata now).memoryStores
        tabId =
      some ((getOrCreateTabVectorStore st tabId).1 ++
        [{ pageContent := pageContent,
           metadata := spreadMeta metadata tabId now }]) := by
  have hstorage :
      mapGet (addWebpageToTab st tabId pageContent metadata now).storage
          (tabDocumentsKey tabId) =
        some { tabId := tabId,
               documents := [{ pageContent := pageContent,
                               metadata := spreadMeta metadata tabId now }],
               document := none, updatedAt := now } := by
    unfold addWebpageToTab
    cases hms : mapGet st.memoryStores tabId with
    | some docs =>
        simp only [getOrCreateTabVectorStore, hms]
        exact mapGet_set_self _ _ _
    | none =>
        simp only [getOrCreateTabVectorStore, hms]
        exact mapGet_set_self _ _ _
  refine ⟨hstorage, ?_, ?_⟩
  · unfold getTabDocument
    rw [hstorage]
    simp
  · unfold addWebpageToTab
    cases hms : mapGet st.memoryStores tabId with
    | some docs =>
        simp only [getOrCreateTabVectorStore, hms]
        exact mapGet_set_self _ _ _
    | none =>
        simp only [getOrCreateTabVectorStore, hms]
        rw [mapGet_set_self]

/-! ## C3: the fallback to the stored page snapshot never fires -/

/-- The page snapshot persisted for tab `7`. -/
def snapshotC3 : JsDoc :=
  { pageContent := "Acme Corp develops routers for factories.",
    metadata := [] }

/-- The persisted record for tab `7`, exactly as `persistTabDocuments`
writes it: `documents` holds the snapshot, no `document` property. -/
def tabDocsC3 : TabDocumentsObj :=
  { tabId := "7", documents := [snapshotC3], document := none,
    updatedAt := 0 }

/-- A vector-store state with the persisted snapshot for tab `7` and an
in-memory store whose search yields nothing. -/
def vsC3 : TabVSState :=
  { memoryStores := [("7", [])],
    storage := [("tab_documents_7", tabDocsC3)] }

/-- A turn with one user message. -/
def reqC3 : ChatRequest :=
  { messages :=
      [{ id := some "m1", role := Role.user,
         content := "what does the page say about Acme?",
         timestamp := some 1, status := some MsgStatus.sent }],
    model := none, systemPrompt := none, metadata := none,
    ragContext := none, generalContext := none }

/-- A similarity search returning no chunks. -/
def simNoneC3 : SimSearch :=
  fun _ _ _ => []

/-- C3: tab `7` has a persisted full-page snapshot and the turn's search
returns zero chunks, yet the assembled request carries *no* general
context (and no RAG context): the fallback reads `tabDocument.document`,
a property `persistTabDocuments` never writes (it writes `documents`), so
the promised verbatim full-page context is never attached. -/
theorem chatPrepareRag_snapshot_fallback_never_fires :
    (getTabDocument vsC3 "7").isSome = true ∧
    (searchInTab simNoneC3 vsC3 "7"
        "what does the page say about Acme?" 5 0).1 = [] ∧
    (chatPrepareRagRequest simNoneC3 vsC3 "7" reqC3 true 5 0).1.generalContext
        = none ∧
    (chatPrepareRagRequest simNoneC3 vsC3 "7" reqC3 true 5 0).1.ragContext
        = none ∧
    (chatPrepareRagRequest simNoneC3 vsC3 "7" reqC3 true 5 0).1 = reqC3 := by
  exact ⟨rfl, rfl, rfl, rfl, rfl⟩

/-! ## C8: what clearing a tab's session actually removes -/

/-- A one-turn session for tab `7`. -/
def sessionC8 : Session :=
  { id := "7", title := some "Tab 7",
    messages :=
      [{ id := some "m1", role := Role.user, content := "hello",
         timestamp := some 1, status := some MsgStatus.sent }],
    createdAt := 0, updatedAt := 1 }

/-- Chat-service state: tab `7` has a cached and persisted session and a
persisted retrieval index, and is the current tab. -/
def stateC8 : ChatState :=
  { sessions := { cache := [("7", sessionC8)],
                  storage := [("tab_session_7", sessionC8)] },
    vectors := { memoryStores := [("7", [snapshotC3])],
                 storage := [("tab_documents_7", tabDocsC3)] },
    currentTabId := some "7" }

/-- The state after `ChatService.clearTabSession` on `stateC8`. -/
def stateAfterC8 : ChatState :=
  { sessions := { cache := [], storage := [] },
    vectors := { memoryStores := [("7", [snapshotC3])],
                 storage := [("tab_documents_7", tabDocsC3)] },
    currentTabId := some "7" }

/-- C8 counterexample: clearing tab `7` empties its session (a subsequent
`loadOrCreate` yields a fresh zero-turn session) but the tab's retrieval
index survives in full — `getTabDocument` still returns the persisted
snapshot and the in-memory store still holds its documents, because
`ChatService.clearTabSession` only calls the session service. -/
theorem chatClear_leaves_retrieval_index :
    chatClearTabSession stateC8 = Except.ok stateAfterC8 ∧
    getTabDocument stateAfterC8.vectors "7" = some tabDocsC3 ∧
    mapGet stateAfterC8.vectors.memoryStores "7" = some [snapshotC3] ∧
    (loadOrCreateTabSession stateAfterC8.sessions "7" 5).1.messages = [] := by
  exact ⟨rfl, rfl, rfl, rfl⟩

/-- C8 amended: with an active tab, `ChatService.clearTabSession` removes
that tab's chat session — both the cache entry and the persisted copy —
so a subsequent `loadOrCreate` returns a fresh session with zero turns;
the tab's retrieval index is left entirely untouched (clearing it is the
separate `clearTabDocuments` operation). -/
theorem chatClear_session_only (st : ChatState) (tabId : String)
    (h : st.currentTabId = some tabId) (t : Nat) :
    chatClearTabSession st =
      Except.ok { st with sessions := clearTabSession st.sessions tabId } ∧
    ({ st with sessions := clearTabSession st.sessions tabId } :
        ChatState).vectors = st.vectors ∧
    mapGet (clearTabSession st.sessions tabId).cache tabId = none ∧
    mapGet (clearTabSession st.sessions tabId).storage (tabSessionKey tabId)
        = none ∧
    (loadOrCreateTabSession (clearTabSession st.sessions tabId) tabId t).1.id
        = tabId ∧
    (loadOrCreateTabSession (clearTabSession st.sessions tabId) tabId
        t).1.messages = [] := by
  have hc : mapGet (clearTabSession st.sessions tabId).cache tabId = none := by
    unfold clearTabSession
    exact mapGet_delete_self _ _
  have hs : mapGet (clearTabSession st.sessions tabId).storage
      (tabSessionKey tabId) = none := by
    unfold clearTabSession
    exact mapGet_delete_self _ _
  have hl : loadOrCreateTabSession (clearTabSession st.sessions tabId) tabId t
      = ({ id := tabId, title := some ("Tab " ++ tabId), messages := [],
            createdAt := t, updatedAt := t },
          { cache := mapSet (clearTabSession st.sessions tabId).cache tabId
              { id := tabId, title := some ("Tab " ++ tabId), messages := [],
                createdAt := t, updatedAt := t },
            storage := mapSet (clearTabSession st.sessions tabId).storage
              (tabSessionKey tabId)
              { id := tabId, title := some ("Tab " ++ tabId), messages := [],
                createdAt := t, updatedAt := t } }) := by
    unfold loadOrCreateTabSession
    rw [hc, hs]
  refine ⟨?_, rfl, hc, hs, ?_, ?_⟩
  · unfold chatClearTabSession
    rw [h]
  · rw [hl]
  · rw [hl]

/-- Closed instance of the amended C8 statement at `stateC8`. -/
theorem chatClear_session_only_witness :
    chatClearTabSession stateC8 =
      Except.ok { stateC8 with
        sessions := clearTabSession stateC8.sessions "7" } ∧
    ({ stateC8 with sessions := clearTabSession stateC8.sessions "7" } :
        ChatState).vectors = stateC8.vectors ∧
    mapGet (clearTabSession stateC8.sessions "7").cache "7" = none ∧
    mapGet (clearTabSession stateC8.sessions "7").storage
        (tabSessionKey "7") = none ∧
    (loadOrCreateTabSession (clearTabSession stateC8.sessions "7") "7"
        5).1.id = "7" ∧
    (loadOrCreateTabSession (clearTabSession stateC8.sessions "7") "7"
        5).1.messages = [] :=
  chatClear_session_only stateC8 "7" rfl 5

/-! ## C2: the tool loop exhausts exactly its round budget -/

theorem runToolLoop_rounds (model : ModelFn) (tools : List MCPTool)
    (h : ∀ ms, (model ms).tool_calls ≠ []) :
    ∀ (remaining : Nat) (messages : List BMsg) (response : AIResp),
      response.tool_calls ≠ [] →
      (runToolLoop model tools messages response remaining).2 = remaining := by
  intro remaining
  induction remaining with
  | zero => intro messages response hr; rfl
  | succ rem ih =>
      intro messages response hr
      have hne : response.tool_calls.isEmpty = false := by
        cases hc : response.tool_calls with
        | nil => exact absurd hc hr
        | cons a t => rfl
      unfold runToolLoop
      rw [hne]
      simp only [Bool.false_eq_true, if_false]
      rw [ih _ _ (h _)]

theorem runToolLoop_result_from_model (model : ModelFn)
    (tools : List MCPTool) :
    ∀ (remaining : Nat) (messages tr0 : List BMsg),
      ∃ tr, (runToolLoop model tools messages (model tr0) remaining).1 =
        model tr := by
  intro remaining
  induction remaining with
  | zero => intro messages tr0; exact ⟨tr0, rfl⟩
  | succ rem ih =>
      intro messages tr0
      by_cases he : (model tr0).tool_calls.isEmpty
      · refine ⟨tr0, ?_⟩
        unfold runToolLoop
        rw [he]
        rfl
      · obtain ⟨tr, htr⟩ := ih
          (messages ++ [BMsg.ai (model tr0).content (model tr0).tool_calls] ++
            execToolCalls tools (model tr0).tool_calls)
          (messages ++ [BMsg.ai (model tr0).content (model tr0).tool_calls] ++
            execToolCalls tools (model tr0).tool_calls)
        refine ⟨tr, ?_⟩
        unfold runToolLoop
        rw [Bool.eq_false_iff.mpr he]
        simp only [Bool.false_eq_true, if_false]
        exact htr

/-- C2: for every model that requests at least one tool call in every
response, the loop in `chat` executes exactly `MAX_TURNS = 5` in-loop
model round-trips and then stops, and the `ChatResponse` that `chat`
returns packages some model response verbatim — the last invocation's
output, with no forced termination message appended (the loop is a total
function, so it terminates without crashing). -/
theorem geminiChat_exhausts_round_budget (cfg : LLMConfig) (model : ModelFn)
    (tools : List MCPTool) (fmt : ℚ → String) (request : ChatRequest)
    (now : Nat) (h : ∀ ms, (model ms).tool_calls ≠ []) :
    (runToolLoop model tools (initMessages fmt request)
        (model (initMessages fmt request)) MAX_TURNS).2 = MAX_TURNS ∧
    ∃ tr, geminiChat cfg model tools fmt request now =
        mkChatResponse cfg request (model tr) now := by
  constructor
  · exact runToolLoop_rounds model tools h MAX_TURNS _ _ (h _)
  · obtain ⟨tr, htr⟩ := runToolLoop_result_from_model model tools MAX_TURNS
      (initMessages fmt request) (initMessages fmt request)
    refine ⟨tr, ?_⟩
    unfold geminiChat
    dsimp only []
    rw [htr]

/-- A model that answers every transcript with one `navigate` tool call. -/
def modelAlwaysTool : ModelFn :=
  fun _ => { content := "again",
             tool_calls := [{ id := "1", name := "navigate", args := "x" }] }

/-- A minimal request for the loop witness. -/
def reqC2 : ChatRequest :=
  { messages :=
      [{ id := some "u1", role := Role.user, content := "go",
         timestamp := some 1, status := some MsgStatus.sent }],
    model := none, systemPrompt := none, metadata := none,
    ragContext := none, generalContext := none }

/-- Config for the loop witness. -/
def cfgC2 : LLMConfig :=
  { apiKey := "key", model := none }

theorem geminiChat_exhausts_round_budget_witness :
    (runToolLoop modelAlwaysTool [] (initMessages (fun _ => "0.0") reqC2)
        (modelAlwaysTool (initMessages (fun _ => "0.0") reqC2))
        MAX_TURNS).2 = MAX_TURNS :=
  (geminiChat_exhausts_round_budget cfgC2 modelAlwaysTool [] (fun _ => "0.0")
    reqC2 0 (fun ms => by simp [modelAlwaysTool])).1

/-! ## Search pipeline lemmas (C5, C10) -/

/-- Scoring one stored vector in the `search` loop. -/
def scoredOfVec (sqrt : ℚ → ℚ) (qe : List ℚ) (sv : StoredVec) : Scored :=
  { id := sv.id, score := cosSimVal sqrt qe sv.embedding,
    content := sv.content, metadata := sv.metadata }

/-- The ranking relation of the descending sort. -/
def rankedBefore (a b : Scored) : Prop :=
  b.score ≤ a.score

theorem scoreAll_ok (sqrt : ℚ → ℚ) (qe : List ℚ)
    (vectors : List StoredVec)
    (hlen : ∀ sv ∈ vectors, sv.embedding.length = qe.length) :
    scoreAll sqrt qe vectors =
      Except.ok (vectors.map (scoredOfVec sqrt qe)) := by
  induction vectors with
  | nil => rfl
  | cons a t ih =>
      have ha : a.embedding.length = qe.length :=
        hlen a (List.mem_cons_self a t)
      have hlent : ∀ sv ∈ t, sv.embedding.length = qe.length :=
        fun sv hsv => hlen sv (List.mem_cons_of_mem a hsv)
      unfold scoreAll at ih ⊢
      rw [List.mapM_cons, ih hlent]
      have hcos : cosineSimilarity sqrt qe a.embedding =
          Except.ok (cosSimVal sqrt qe a.embedding) := by
        unfold cosineSimilarity
        rw [if_neg (not_not_intro ha.symm)]
      rw [hcos]
      rfl

theorem searchVS_ok (embed : String → List ℚ) (sqrt : ℚ → ℚ)
    (vectors : List StoredVec) (query : String) (limit : Nat)
    (threshold : Option ℚ)
    (hlen : ∀ sv ∈ vectors, sv.embedding.length = (embed query).length) :
    searchVS embed sqrt vectors query limit threshold =
      Except.ok
        ((((sortScoredDesc (vectors.map (scoredOfVec sqrt (embed query)))).take
            limit).filter (fun item => thresholdKeep threshold item.score)).map
          scoredToResult) := by
  unfold searchVS
  dsimp only []
  rw [scoreAll_ok sqrt (embed query) vectors hlen]
  rfl

theorem mem_insertScoredDesc (x : Scored) (l : List Scored) (y : Scored) :
    y ∈ insertScoredDesc x l ↔ y = x ∨ y ∈ l := by
  induction l with
  | nil => simp [insertScoredDesc]
  | cons a t ih =>
      unfold insertScoredDesc
      by_cases h : a.score ≤ x.score
      · simp [h]
      · simp [h, ih]
        tauto

theorem pairwise_insertScoredDesc (x : Scored) (l : List Scored)
    (hl : List.Pairwise rankedBefore l) :
    List.Pairwise rankedBefore (insertScoredDesc x l) := by
  induction l with
  | nil => simp [insertScoredDesc]
  | cons a t ih =>
      rcases List.pairwise_cons.mp hl with ⟨ha, ht⟩
      unfold insertScoredDesc
      by_cases h : a.score ≤ x.score
      · rw [if_pos h]
        refine List.pairwise_cons.mpr ⟨?_, hl⟩
        intro b hb
        rcases List.mem_cons.mp hb with rfl | hbt
        · exact h
        · exact le_trans (ha b hbt) h
      · rw [if_neg h]
        refine List.pairwise_cons.mpr ⟨?_, ih ht⟩
        intro b hb
        rcases (mem_insertScoredDesc x t b).mp hb with rfl | hbt
        · exact le_of_lt (lt_of_not_le h)
        · exact ha b hbt

theorem pairwise_sortScoredDesc (l : List Scored) :
    List.Pairwise rankedBefore (sortScoredDesc l) := by
  induction l with
  | nil => exact List.Pairwise.nil
  | cons a t ih => exact pairwise_insertScoredDesc a (sortScoredDesc t) ih

theorem insertScoredDesc_length (x : Scored) (l : List Scored) :
    (insertScoredDesc x l).length = l.length + 1 := by
  induction l with
  | nil => rfl
  | cons a t ih =>
      unfold insertScoredDesc
      by_cases h : a.score ≤ x.score
      · simp [h]
      · simp [h, ih]

theorem sortScoredDesc_length (l : List Scored) :
    (sortScoredDesc l).length = l.length := by
  induction l with
  | nil => rfl
  | cons a t ih =>
      unfold sortScoredDesc
      rw [insertScoredDesc_length, ih]
      rfl

theorem filter_take_comm_of_sorted (p : Scored → Bool)
    (hmono : ∀ a b : Scored, b.score ≤ a.score → p b = true → p a = true) :
    ∀ (l : List Scored), List.Pairwise rankedBefore l →
      ∀ n : Nat, (l.take n).filter p = (l.filter p).take n := by
  intro l
  induction l with
  | nil => intro _ n; simp
  | cons a t ih =>
      intro hl n
      rcases List.pairwise_cons.mp hl with ⟨ha, ht⟩
      cases n with
      | zero => simp
      | succ m =>
          rw [List.take_succ_cons]
          by_cases hp : p a
          · rw [List.filter_cons, if_pos hp, List.filter_cons, if_pos hp,
              List.take_succ_cons, ih ht m]
          · rw [List.filter_cons, if_neg (by simp [hp]), List.filter_cons,
              if_neg (by simp [hp])]
            have hall : ∀ b ∈ t, ¬ p b = true := by
              intro b hb hq
              exact hp (hmono a b (ha b hb) hq)
            have h1 : (t.take m).filter p = [] :=
              List.filter_eq_nil_iff.mpr
                (fun b hb => hall b (List.take_subset m t hb))
            have h2 : t.filter p = [] := List.filter_eq_nil_iff.mpr hall
            rw [h1, h2]
            simp

/-! ## C10: a zero or omitted threshold disables relevance filtering -/

/-- C10: with a threshold of `0` or no threshold at all, `search` applies
no relevance filter — it returns the top-`limit` ranked chunks whatever
their scores (so the result length is `min limit` the store size) — and
with a positive threshold `t` the result is exactly the capped ranked
list filtered by `t ≤ score` afterwards. -/
theorem search_zero_threshold_unfiltered (embed : String → List ℚ)
    (sqrt : ℚ → ℚ) (vectors : List StoredVec) (query : String)
    (limit : Nat)
    (hlen : ∀ sv ∈ vectors, sv.embedding.length = (embed query).length) :
    searchVS embed sqrt vectors query limit (some 0) =
      searchVS embed sqrt vectors query limit none ∧
    searchVS embed sqrt vectors query limit none =
      Except.ok
        (((sortScoredDesc (vectors.map (scoredOfVec sqrt (embed query)))).take
            limit).map scoredToResult) ∧
    (((sortScoredDesc (vectors.map (scoredOfVec sqrt (embed query)))).take
        limit).map scoredToResult).length = min limit vectors.length ∧
    (∀ t : ℚ, 0 < t →
      searchVS embed sqrt vectors query limit (some t) =
        Except.ok
          ((((sortScoredDesc (vectors.map (scoredOfVec sqrt
              (embed query)))).take limit).map scoredToResult).filter
            (fun r => t ≤ r.score))) := by
  refine ⟨?_, ?_, ?_, ?_⟩
  · rw [searchVS_ok embed sqrt vectors query limit (some 0) hlen,
      searchVS_ok embed sqrt vectors query limit none hlen]
    simp [thresholdKeep]
  · rw [searchVS_ok embed sqrt vectors query limit none hlen]
    simp [thresholdKeep]
  · rw [List.length_map, List.length_take, sortScoredDesc_length,
      List.length_map]
  · intro t ht
    rw [searchVS_ok embed sqrt vectors query limit (some t) hlen]
    have hkeep : (fun item : Scored => thresholdKeep (some t) item.score) =
        (fun item : Scored => decide (t ≤ item.score)) := by
      funext item
      simp [thresholdKeep, ne_of_gt ht]
    rw [hkeep, List.filter_map]
    rfl

/-- The store for the threshold witnesses: two one-dimensional documents,
one at cosine similarity `1` with the query and one at `-1`. -/
def vecPosW : StoredVec :=
  { id := "doc_0", embedding := [1], content := "posdoc", metadata := [] }

/-- A stored vector at similarity `-1` with the witness query. -/
def vecNegW : StoredVec :=
  { id := "doc_1", embedding := [-1], content := "negdoc", metadata := [] }

/-- Witness embedding: every query embeds to `[1]`. -/
def embedOneW : String → List ℚ :=
  fun _ => [1]

theorem search_zero_threshold_unfiltered_witness :
    searchVS embedOneW (fun q => q) [vecPosW, vecNegW] "query" 5 (some 0) =
      searchVS embedOneW (fun q => q) [vecPosW, vecNegW] "query" 5 none ∧
    searchVS embedOneW (fun q => q) [vecPosW, vecNegW] "query" 5 none =
      Except.ok
        (((sortScoredDesc ([vecPosW, vecNegW].map
            (scoredOfVec (fun q => q) (embedOneW "query")))).take 5).map
          scoredToResult) ∧
    (((sortScoredDesc ([vecPosW, vecNegW].map
        (scoredOfVec (fun q => q) (embedOneW "query")))).take 5).map
      scoredToResult).length = min 5 ([vecPosW, vecNegW] : List StoredVec).length ∧
    searchVS embedOneW (fun q => q) [vecPosW, vecNegW] "query" 5 (some 1) =
      Except.ok
        ((((sortScoredDesc ([vecPosW, vecNegW].map
            (scoredOfVec (fun q => q) (embedOneW "query")))).take 5).map
          scoredToResult).filter (fun r => 1 ≤ r.score)) := by
  have h := search_zero_threshold_unfiltered embedOneW (fun q => q)
    [vecPosW, vecNegW] "query" 5 (by decide)
  exact ⟨h.1, h.2.1, h.2.2.1, h.2.2.2 1 (by norm_num)⟩

/-! ## C5: exactness of threshold search -/

/-- C5 counterexample: with relevance threshold `0`, `search` returns a
chunk whose similarity is `-1`, strictly below the threshold — `0` is
falsy, so `!threshold` disables the filter instead of demanding
`score >= 0`. -/
theorem search_threshold_zero_returns_below_threshold :
    searchVS embedOneW (fun q => q) [vecNegW] "query" 5 (some 0) =
      Except.ok
        [{ id := "doc_1", text := "negdoc", score := -1, metadata := [] }] ∧
    ¬ ((0 : ℚ) ≤ (-1 : ℚ)) := by
  constructor
  · rw [searchVS_ok embedOneW (fun q => q) [vecNegW] "query" 5 (some 0)
      (by decide)]
    have hscore : cosSimVal (fun q => q) [(1 : ℚ)] [(-1 : ℚ)] = -1 := by
      unfold cosSimVal dotProd
      norm_num
    simp [scoredOfVec, embedOneW, vecNegW, hscore, sortScoredDesc,
      insertScoredDesc, thresholdKeep, scoredToResult]
  · norm_num

/-- C5 amended: for every *positive* relevance threshold `t`, `search`
embeds the query, ranks the stored chunks by similarity, and returns
exactly the chunks at or above `t`, most-similar first, capped at
`limit`: the result equals the ranked above-threshold list truncated to
`limit`, is sorted by descending score, contains only scores `>= t`, and
has at most `limit` entries. (With threshold `0` or omitted the filter is
disabled — the counterexample — and the function ranks the whole store,
not one tab: the tab-scoped `searchInTab` takes no threshold.) -/
theorem search_positive_threshold_ranked_exact (embed : String → List ℚ)
    (sqrt : ℚ → ℚ) (vectors : List StoredVec) (query : String)
    (limit : Nat) (t : ℚ) (ht : 0 < t)
    (hlen : ∀ sv ∈ vectors, sv.embedding.length = (embed query).length) :
    searchVS embed sqrt vectors query limit (some t) =
      Except.ok
        ((((sortScoredDesc (vectors.map (scoredOfVec sqrt
            (embed query)))).filter (fun s => t ≤ s.score)).take limit).map
          scoredToResult) ∧
    List.Pairwise (fun a b : SearchResult => b.score ≤ a.score)
      ((((sortScoredDesc (vectors.map (scoredOfVec sqrt
          (embed query)))).filter (fun s => t ≤ s.score)).take limit).map
        scoredToResult) ∧
    ((((sortScoredDesc (vectors.map (scoredOfVec sqrt
        (embed query)))).filter (fun s => t ≤ s.score)).take limit).map
      scoredToResult).all (fun r => decide (t ≤ r.score)) = true ∧
    ((((sortScoredDesc (vectors.map (scoredOfVec sqrt
        (embed query)))).filter (fun s => t ≤ s.score)).take limit).map
      scoredToResult).length ≤ limit := by
  have hkeep : (fun item : Scored => thresholdKeep (some t) item.score) =
      (fun item : Scored => decide (t ≤ item.score)) := by
    funext item
    simp [thresholdKeep, ne_of_gt ht]
  refine ⟨?_, ?_, ?_, ?_⟩
  · rw [searchVS_ok embed sqrt vectors query limit (some t) hlen, hkeep,
      filter_take_comm_of_sorted _
        (fun a b hab hb => by
          simp only [decide_eq_true_eq] at hb ⊢
          exact le_trans hb hab)
        _ (pairwise_sortScoredDesc _) limit]
  · rw [List.pairwise_map]
    refine List.Pairwise.sublist ?_ (pairwise_sortScoredDesc
      (vectors.map (scoredOfVec sqrt (embed query))))
    exact List.Sublist.trans (List.take_sublist _ _) (List.filter_sublist _)
  · rw [List.all_eq_true]
    intro x hx
    rcases List.mem_map.mp hx with ⟨s, hs, rfl⟩
    have hsf := List.take_subset _ _ hs
    have := (List.mem_filter.mp hsf).2
    simpa [scoredToResult] using this
  · rw [List.length_map, List.length_take]
    exact min_le_left _ _

theorem search_positive_threshold_ranked_exact_witness :
    searchVS embedOneW (fun q => q) [vecPosW, vecNegW] "query" 5
        (some (1/2)) =
      Except.ok
        ((((sortScoredDesc ([vecPosW, vecNegW].map
            (scoredOfVec (fun q => q) (embedOneW "query")))).filter
            (fun s => (1/2 : ℚ) ≤ s.score)).take 5).map scoredToResult) :=
  (search_positive_threshold_ranked_exact embedOneW (fun q => q)
    [vecPosW, vecNegW] "query" 5 (1/2) (by norm_num) (by decide)).1

/-! ## C7: session load-or-create idempotence -/

/-- Time sanity for an operation between the two `loadOrCreate` calls:
its `Date.now()` reading is not before `u` (clocks do not go backwards).
Operations that read no clock are unconstrained. -/
def opTimeOK (u : Nat) : SessOp → Bool
  | .loadOrCreate _ now => u ≤ now
  | .addMessage _ _ now _ => u ≤ now
  | _ => true

theorem loadOrCreate_cache_hit (st : SessionState) (tabId : String)
    (t : Nat) (s : Session) (hc : mapGet st.cache tabId = some s) :
    loadOrCreateTabSession st tabId t = (s, st) := by
  unfold loadOrCreateTabSession
  rw [hc]

theorem loadOrCreate_caches (st : SessionState) (tabId : String) (t : Nat) :
    mapGet (loadOrCreateTabSession st tabId t).2.cache tabId =
      some (loadOrCreateTabSession st tabId t).1 := by
  unfold loadOrCreateTabSession
  cases hc : mapGet st.cache tabId with
  | some s => exact hc
  | none =>
      cases hs : mapGet st.storage (tabSessionKey tabId) with
      | some stored => exact mapGet_set_self _ _ _
      | none => exact mapGet_set_self _ _ _

theorem loadOrCreate_cache_frame (st : SessionState) (tid tabId : String)
    (t : Nat) (hne : tid ≠ tabId) :
    mapGet (loadOrCreateTabSession st tid t).2.cache tabId =
      mapGet st.cache tabId := by
  unfold loadOrCreateTabSession
  cases hc : mapGet st.cache tid with
  | some s => rfl
  | none =>
      cases hs : mapGet st.storage (tabSessionKey tid) with
      | some stored => exact mapGet_set_ne _ _ _ _ hne
      | none => exact mapGet_set_ne _ _ _ _ hne

theorem getTabSession_cache_frame (st : SessionState) (tid tabId : String)
    (hne : tid ≠ tabId) :
    mapGet (getTabSession st tid).2.cache tabId = mapGet st.cache tabId := by
  unfold getTabSession
  cases hc : mapGet st.cache tid with
  | some s => rfl
  | none =>
      cases hs : mapGet st.storage (tabSessionKey tid) with
      | some stored => exact mapGet_set_ne _ _ _ _ hne
      | none => rfl

theorem finishAdd_cache_self (st : SessionState) (tabId : String)
    (session : Session) (message : ChatMsg) (now rnd : Nat) :
    ∃ s2, mapGet (finishAddMessage st tabId session message now
        rnd).cache tabId = some s2 ∧
      s2.id = session.id ∧ s2.updatedAt = now := by
  unfold finishAddMessage
  exact ⟨_, mapGet_set_self _ _ _, rfl, rfl⟩

theorem finishAdd_cache_frame (st : SessionState) (tid tabId : String)
    (session : Session) (message : ChatMsg) (now rnd : Nat)
    (hne : tid ≠ tabId) :
    mapGet (finishAddMessage st tid session message now rnd).cache tabId =
      mapGet st.cache tabId := by
  unfold finishAddMessage
  exact mapGet_set_ne _ _ _ _ hne

theorem addMessage_cache_frame (st : SessionState) (tid tabId : String)
    (message : ChatMsg) (now rnd : Nat) (hne : tid ≠ tabId) :
    mapGet (addMessageToTabSession st tid message now rnd).cache tabId =
      mapGet st.cache tabId := by
  unfold addMessageToTabSession
  cases hc : mapGet st.cache tid with
  | some session => exact finishAdd_cache_frame st tid tabId _ _ now rnd hne
  | none =>
      cases hg : getTabSession st tid with
      | mk stored st2 =>
          have hgf : mapGet st2.cache tabId = mapGet st.cache tabId := by
            have := getTabSession_cache_frame st tid tabId hne
            rw [hg] at this
            exact this
          cases stored with
          | some sg =>
              dsimp only []
              rw [finishAdd_cache_frame st2 tid tabId _ _ now rnd hne]
              exact hgf
          | none =>
              cases hl : loadOrCreateTabSession st2 tid now with
              | mk s st3 =>
                  have hlf : mapGet st3.cache tabId = mapGet st2.cache tabId := by
                    have := loadOrCreate_cache_frame st2 tid tabId now hne
                    rw [hl] at this
                    exact this
                  dsimp only []
                  rw [hl]
                  dsimp only []
                  rw [finishAdd_cache_frame st3 tid tabId _ _ now rnd hne,
                    hlf, hgf]

theorem applySessOp_preserves (tabId i : String) (u : Nat) (op : SessOp)
    (st : SessionState) (s : Session)
    (hc : mapGet st.cache tabId = some s) (hid : s.id = i)
    (hu : u ≤ s.updatedAt) (hop : op ≠ SessOp.clear tabId)
    (htime : opTimeOK u op = true) :
    ∃ s2, mapGet (applySessOp st op).cache tabId = some s2 ∧
      s2.id = i ∧ u ≤ s2.updatedAt := by
  cases op with
  | loadOrCreate tid now =>
      by_cases htid : tid = tabId
      · subst htid
        refine ⟨s, ?_, hid, hu⟩
        show mapGet (loadOrCreateTabSession st tid now).2.cache tid = some s
        rw [loadOrCreate_cache_hit st tid now s hc]
        exact hc
      · refine ⟨s, ?_, hid, hu⟩
        show mapGet (loadOrCreateTabSession st tid now).2.cache tabId = some s
        rw [loadOrCreate_cache_frame st tid tabId now htid]
        exact hc
  | getSession tid =>
      by_cases htid : tid = tabId
      · subst htid
        refine ⟨s, ?_, hid, hu⟩
        show mapGet (getTabSession st tid).2.cache tid = some s
        unfold getTabSession
        rw [hc]
        exact hc
      · refine ⟨s, ?_, hid, hu⟩
        show mapGet (getTabSession st tid).2.cache tabId = some s
        rw [getTabSession_cache_frame st tid tabId htid]
        exact hc
  | addMessage tid message now rnd =>
      have hnow : u ≤ now := by simpa [opTimeOK] using htime
      by_cases htid : tid = tabId
      · subst htid
        show ∃ s2, mapGet (addMessageToTabSession st tid message now
            rnd).cache tid = some s2 ∧ s2.id = i ∧ u ≤ s2.updatedAt
        unfold addMessageToTabSession
        rw [hc]
        obtain ⟨s2, hc2, hid2, hu2⟩ :=
          finishAdd_cache_self st tid s message now rnd
        exact ⟨s2, hc2, hid2.trans hid, hu2 ▸ hnow⟩
      · refine ⟨s, ?_, hid, hu⟩
        show mapGet (addMessageToTabSession st tid message now rnd).cache
            tabId = some s
        rw [addMessage_cache_frame st tid tabId message now rnd htid]
        exact hc
  | clear tid =>
      have htid : tid ≠ tabId := fun e => hop (by rw [e])
      refine ⟨s, ?_, hid, hu⟩
      show mapGet (clearTabSession st tid).cache tabId = some s
      unfold clearTabSession
      rw [mapGet_delete_ne _ _ _ htid]
      exact hc

theorem runSessOps_preserves (tabId i : String) (u : Nat) :
    ∀ (ops : List SessOp) (st : SessionState),
      (∀ op ∈ ops, op ≠ SessOp.clear tabId ∧ opTimeOK u op = true) →
      (∃ s, mapGet st.cache tabId = some s ∧ s.id = i ∧
        u ≤ s.updatedAt) →
      ∃ s2, mapGet (runSessOps st ops).cache tabId = some s2 ∧
        s2.id = i ∧ u ≤ s2.updatedAt := by
  intro ops
  induction ops with
  | nil => intro st _ h; exact h
  | cons op rest ih =>
      intro st hops hbase
      obtain ⟨s, hc, hid, hu⟩ := hbase
      obtain ⟨s2, hc2, hid2, hu2⟩ := applySessOp_preserves tabId i u op st s
        hc hid hu (hops op (List.mem_cons_self op rest)).1
        (hops op (List.mem_cons_self op rest)).2
      have hrest : runSessOps st (op :: rest) =
          runSessOps (applySessOp st op) rest := rfl
      rw [hrest]
      exact ih (applySessOp st op)
        (fun o ho => hops o (List.mem_cons_of_mem op ho))
        ⟨s2, hc2, hid2, hu2⟩

/-- C7: `loadOrCreate` twice for the same tab id, with any intervening
session-service operations that are not a `clear` of that tab (and whose
clock readings are not before the first call's `updated-at`), returns a
session with the identical session id, an `updated-at` that is not less
than the first call's, and the second call changes nothing — it neither
creates nor persists a new session. -/
theorem loadOrCreate_idempotent_without_clear (st : SessionState)
    (tabId : String) (t1 t2 : Nat) (ops : List SessOp)
    (hops : ∀ op ∈ ops, op ≠ SessOp.clear tabId ∧
      opTimeOK (loadOrCreateTabSession st tabId t1).1.updatedAt op = true) :
    (loadOrCreateTabSession
        (runSessOps (loadOrCreateTabSession st tabId t1).2 ops) tabId
        t2).1.id = (loadOrCreateTabSession st tabId t1).1.id ∧
    (loadOrCreateTabSession st tabId t1).1.updatedAt ≤
      (loadOrCreateTabSession
        (runSessOps (loadOrCreateTabSession st tabId t1).2 ops) tabId
        t2).1.updatedAt ∧
    (loadOrCreateTabSession
        (runSessOps (loadOrCreateTabSession st tabId t1).2 ops) tabId
        t2).2 = runSessOps (loadOrCreateTabSession st tabId t1).2 ops := by
  have hbase : ∃ s, mapGet (loadOrCreateTabSession st tabId t1).2.cache
      tabId = some s ∧ s.id = (loadOrCreateTabSession st tabId t1).1.id ∧
      (loadOrCreateTabSession st tabId t1).1.updatedAt ≤ s.updatedAt :=
    ⟨(loadOrCreateTabSession st tabId t1).1, loadOrCreate_caches st tabId t1,
      rfl, le_refl _⟩
  obtain ⟨s2, hc2, hid2, hu2⟩ := runSessOps_preserves tabId
    (loadOrCreateTabSession st tabId t1).1.id
    (loadOrCreateTabSession st tabId t1).1.updatedAt ops
    (loadOrCreateTabSession st tabId t1).2 hops hbase
  rw [loadOrCreate_cache_hit
    (runSessOps (loadOrCreateTabSession st tabId t1).2 ops) tabId t2 s2 hc2]
  exact ⟨hid2, hu2, rfl⟩

/-- A message appended between the two witness calls. -/
def msgC7 : ChatMsg :=
  { id := some "m9", role := Role.user, content := "hi",
    timestamp := some 20, status := some MsgStatus.sent }

/-- Intervening operations for the witness: an append on tab `7`, work on
another tab `9` including its clear, and a read of tab `7`. -/
def opsC7 : List SessOp :=
  [SessOp.addMessage "7" msgC7 20 3, SessOp.loadOrCreate "9" 30,
   SessOp.getSession "7", SessOp.clear "9"]

/-- The empty session-service state. -/
def emptySessionState : SessionState :=
  { cache := [], storage := [] }

theorem loadOrCreate_idempotent_without_clear_witness :
    (loadOrCreateTabSession
        (runSessOps (loadOrCreateTabSession emptySessionState "7" 10).2
          opsC7) "7" 40).1.id =
      (loadOrCreateTabSession emptySessionState "7" 10).1.id ∧
    (loadOrCreateTabSession emptySessionState "7" 10).1.updatedAt ≤
      (loadOrCreateTabSession
        (runSessOps (loadOrCreateTabSession emptySessionState "7" 10).2
          opsC7) "7" 40).1.updatedAt ∧
    (loadOrCreateTabSession
        (runSessOps (loadOrCreateTabSession emptySessionState "7" 10).2
          opsC7) "7" 40).2 =
      runSessOps (loadOrCreateTabSession emptySessionState "7" 10).2 opsC7 :=
  loadOrCreate_idempotent_without_clear emptySessionState "7" 10 40 opsC7
    (by decide)

end SphereExt
